import Mathlib

/-!
Verification of the srpc library (a typed RPC-over-HTTP layer in Go).

The development shallowly embeds the two source files that carry the
protocol logic: `codec.go` (the JSON codec with its unit-type special
case) and the endpoint/transport file (`NewEndpoint`, `Register`,
`Remote`, `NewTransport`, `readErr`, `WireError`).

Streams (`io.Reader` values that are fully read by `io.ReadAll` or a
decoder) are modelled as a string of content plus an optional read
error; close behaviour is modelled by a closeable flag and an optional
close error.  External standard-library collaborators
(`encoding/json`, `net/url.Parse`, `http.Error`, `http.StatusText`)
are modelled at their documented boundary where the code under
verification calls them.
-/

namespace Srpc

/-- Leaf error values (Go `error` strings). -/
abbrev Err := String

/-- Model of an `io.Reader` (plus optional `io.Closer`) stream:
`data` is what a full read yields, `readErr` makes any read fail,
`closeable` says whether the value also implements `io.Closer`, and
`closeErr` is what `Close` returns. -/
structure Stream where
  data : String
  readErr : Option Err := none
  closeable : Bool := false
  closeErr : Option Err := none
deriving DecidableEq

/-- Model of `io.ReadAll`: the whole content, or the stream's read error. -/
def readAll (s : Stream) : Except Err String :=
  match s.readErr with
  | some e => .error e
  | none => .ok s.data

/-- A `bytes.Reader` over a marshalled buffer: infallible reads, no `Close`. -/
def bytesReader (buf : String) : Stream :=
  { data := buf }

/-- The `empty` reader from codec.go: reads return `(0, io.EOF)` at once. -/
def emptyReader : Stream :=
  { data := "" }

/-- `io.NopCloser(strings.NewReader(q))`: infallible reads; its `Close`
is a no-op, so for the purposes of this model it is not closeable. -/
def strReader (q : String) : Stream :=
  { data := q }

----------------------------------------------------------------
-- JSON string escaping (model of encoding/json's appendString) --
----------------------------------------------------------------

/-- Lowercase hex digit, as used by encoding/json for escapes. -/
def hexDigit (n : Nat) : Char :=
  if n < 10 then Char.ofNat (48 + n) else Char.ofNat (87 + n)

/-- Value of a hex digit character (either case), as accepted by the
JSON string decoder. -/
def fromHex (c : Char) : Option Nat :=
  if 48 ≤ c.toNat ∧ c.toNat ≤ 57 then some (c.toNat - 48)
  else if 97 ≤ c.toNat ∧ c.toNat ≤ 102 then some (c.toNat - 87)
  else if 65 ≤ c.toNat ∧ c.toNat ≤ 70 then some (c.toNat - 55)
  else none

/-- Modelled from encoding/json `appendString` (with the default HTML
escaping that `json.Marshal` applies): the characters a single rune
contributes to a quoted JSON string.  `"`, `\`, `\n`, `\r`, `\t` get
two-character escapes; other control characters and `<`, `>`, `&` get
`\u00xx`; U+2028 and U+2029 get `\u202x`; everything else is literal. -/
def quoteChar (c : Char) : List Char :=
  if c = '"' then ['\\', '"']
  else if c = '\\' then ['\\', '\\']
  else if c = '\n' then ['\\', 'n']
  else if c = '\r' then ['\\', 'r']
  else if c = '\t' then ['\\', 't']
  else if c.toNat < 32 ∨ c = '<' ∨ c = '>' ∨ c = '&' then
    ['\\', 'u', '0', '0', hexDigit (c.toNat / 16), hexDigit (c.toNat % 16)]
  else if c.toNat = 0x2028 then ['\\', 'u', '2', '0', '2', '8']
  else if c.toNat = 0x2029 then ['\\', 'u', '2', '0', '2', '9']
  else [c]

/-- The escaped content of a JSON string (between the quotes). -/
def quoteList : List Char → List Char
  | [] => []
  | c :: l => quoteChar c ++ quoteList l

/-- A full quoted JSON string as `json.Marshal` emits for a Go string. -/
def goQuoteString (s : String) : String :=
  "\"" ++ String.mk (quoteList s.data) ++ "\""

/-- The single-character JSON escapes the decoder accepts after `\`. -/
def escChar (e : Char) : Option Char :=
  if e = '"' then some '"'
  else if e = '\\' then some '\\'
  else if e = '/' then some '/'
  else if e = 'b' then some (Char.ofNat 8)
  else if e = 'f' then some (Char.ofNat 12)
  else if e = 'n' then some '\n'
  else if e = 'r' then some '\r'
  else if e = 't' then some '\t'
  else none

/-- Four hex digits to a code point. -/
def hex4 (a b c d : Char) : Option Nat :=
  match fromHex a, fromHex b, fromHex c, fromHex d with
  | some x, some y, some z, some w => some (((x * 16 + y) * 16 + z) * 16 + w)
  | _, _, _, _ => none

/-- Modelled from encoding/json's string scanner: consume the escaped
content of a JSON string up to the closing quote, returning the decoded
characters and the input remaining after the quote. -/
def unquoteAux : List Char → Option (List Char × List Char)
  | [] => none
  | c :: rest =>
    if c = '"' then some ([], rest)
    else if c = '\\' then
      match rest with
      | [] => none
      | e :: rest2 =>
        if e = 'u' then
          match rest2 with
          | a :: b :: c2 :: d :: rest3 =>
            match hex4 a b c2 d with
            | none => none
            | some n =>
              match unquoteAux rest3 with
              | none => none
              | some (l, r) => some (Char.ofNat n :: l, r)
          | _ => none
        else
          match escChar e with
          | none => none
          | some ch =>
            match unquoteAux rest2 with
            | none => none
            | some (l, r) => some (ch :: l, r)
    else
      match unquoteAux rest with
      | none => none
      | some (l, r) => some (c :: l, r)

-----------------------------------
-- Codec (codec.go) and payloads  --
-----------------------------------

/-- The `Codec[T]` struct from codec.go.  `Co`/`Dec` are fallible as in
the source; `Dec` consumes a stream. -/
structure Codec (T : Type) where
  ContentType : String
  KeepOpen : Bool
  Co : T → Except Err Stream
  Dec : Stream → Except Err T

/-- The data `NewCodecJSON[T]` obtains from its type parameter and from
encoding/json: `isEmpty` is the result of the `any(zero).(struct\x7b\x7d)`
type assertion (true exactly when `T` is the anonymous empty struct
type, by Go dynamic-type identity), `zero` is `var zero T`, and
`marshal` / `unmarshal` model `json.Marshal` and
`json.NewDecoder(r).Decode` for `T` on fully-read input. -/
structure JsonModel (T : Type) where
  isEmpty : Bool
  zero : T
  marshal : T → Except Err String
  unmarshal : String → Except Err T

/-- `NewCodecJSON[T]` from codec.go: content type `application/json`,
`KeepOpen` left at its zero value; when `isEmpty`, encode returns the
`empty` reader without marshalling and decode returns `zero` without
touching the reader; otherwise encode marshals into a `bytes.Reader`
and decode reads the stream and unmarshals. -/
def NewCodecJSON {T : Type} (m : JsonModel T) : Codec T :=
  { ContentType := "application/json"
    KeepOpen := false
    Co := fun t =>
      if m.isEmpty then .ok emptyReader
      else
        match m.marshal t with
        | .error e => .error e
        | .ok buf => .ok (bytesReader buf)
    Dec := fun r =>
      if m.isEmpty then .ok m.zero
      else
        match readAll r with
        | .error e => .error e
        | .ok s => m.unmarshal s }

/-- The test payload type `Req struct \x7b B string \x7d`. -/
structure Req where
  B : String
deriving DecidableEq

/-- A user-defined struct type with no fields (`type EmptyE struct\x7b\x7d`):
distinct from the anonymous `struct\x7b\x7d`, so the codec's type
assertion fails for it. -/
structure EmptyE where
deriving DecidableEq

/-- `json.Marshal` output for a `Req` value: `\x7b"B":"..."\x7d` with the
string escaped as encoding/json does. -/
def marshalReq (r : Req) : String :=
  "\x7b\"B\":" ++ goQuoteString r.B ++ "\x7d"

/-- Modelled from encoding/json `Decoder.Decode` into `Req`, on the
canonical object shape `Marshal` produces (one field `B`, no
whitespace); trailing input after the object is left unread, as
`Decode` does. -/
def parseReq (s : String) : Except Err Req :=
  match s.data with
  | '{' :: '"' :: 'B' :: '"' :: ':' :: '"' :: rest =>
    match unquoteAux rest with
    | some (content, '}' :: _) => .ok ⟨String.mk content⟩
    | _ => .error "json: invalid Req"
  | _ => .error "json: invalid Req"

/-- The `JsonModel` for `Req`: not the empty struct type. -/
def reqJsonModel : JsonModel Req :=
  { isEmpty := false
    zero := ⟨""⟩
    marshal := fun r => .ok (marshalReq r)
    unmarshal := parseReq }

/-- The `JsonModel` for the anonymous empty struct type `struct\x7b\x7d`
(Lean `Unit`): the type assertion succeeds, so `isEmpty` is true. -/
def unitJsonModel : JsonModel Unit :=
  { isEmpty := true
    zero := ()
    marshal := fun _ => .ok "{}"
    unmarshal := fun s => if s = "{}" then .ok () else .error "json: invalid value" }

/-- The `JsonModel` for the user-defined no-field struct `EmptyE`:
its dynamic type is `EmptyE`, not `struct\x7b\x7d`, so the assertion
`any(zero).(struct\x7b\x7d)` fails and `isEmpty` is false;
`json.Marshal` emits the literal `\x7b\x7d` and `Decode` parses one
JSON value (modelled on the canonical `\x7b\x7d` input). -/
def emptyEJsonModel : JsonModel EmptyE :=
  { isEmpty := false
    zero := ⟨⟩
    marshal := fun _ => .ok "{}"
    unmarshal := fun s => if s = "{}" then .ok ⟨⟩ else .error "json: invalid EmptyE" }

/-- `NewCodecJSON[Req]()`. -/
def codecJSONReq : Codec Req := NewCodecJSON reqJsonModel

/-- `NewCodecJSON[struct\x7b\x7d]()` — the unit codec. -/
def codecJSONUnit : Codec Unit := NewCodecJSON unitJsonModel

/-- `NewCodecJSON[EmptyE]()` for the user-defined empty struct. -/
def codecJSONEmptyE : Codec EmptyE := NewCodecJSON emptyEJsonModel

--------------------------------
-- Endpoint (part_002, lines 16-49)
--------------------------------

/-- `QueryKey`: the query parameter sRPC uses for state-preserving requests. -/
def QueryKey : String := "srpc"

/-- The `Endpoint[Response, Request]` struct. -/
structure Endpoint (Response Request : Type) where
  method : String
  path : String
  stateChanging : Bool
  resc : Codec Response
  reqc : Codec Request

/-- `strings.HasPrefix(path, "/")`: whether the first character is `/`. -/
def startsWithSlash (s : String) : Bool :=
  match s.data with
  | c :: _ => c = '/'
  | [] => false

/-- `NewEndpoint`: panics (modelled as `Except.error`) when the path
does not start with `/`; derives `stateChanging` from the method
exactly as the source does. -/
def NewEndpoint {Response Request : Type} (method path : String)
    (resc : Codec Response) (reqc : Codec Request) :
    Except Err (Endpoint Response Request) :=
  if ¬ startsWithSlash path then
    .error ("path must start with '/', " ++ path ++ " provided")
  else
    .ok { method := method
          path := path
          stateChanging := method ≠ "GET" ∧ method ≠ "OPTIONS" ∧ method ≠ "HEAD"
          resc := resc
          reqc := reqc }

--------------------------------
-- Transport (part_002, lines 160-198)
--------------------------------

/-- A cookie: name and value are all this layer needs. -/
structure Cookie where
  name : String
  value : String
deriving DecidableEq

/-- The result of `net/url.Parse` on the origin, at the boundary this
code consumes: scheme (lowercased by `Parse`), host, path, raw query. -/
structure GoURL where
  scheme : String
  host : String
  path : String
  rawQuery : String
deriving DecidableEq

/-- Model of `strings.EqualFold` (adequate for the ASCII scheme
comparisons performed here). -/
def equalFold (a b : String) : Bool :=
  a.toLower == b.toLower

/-- The reasons `NewTransport` rejects an origin, mirroring its
`ErrBadOrigin`-wrapped errors. -/
inductive TransportErr where
  | invalidURL (e : Err)
  | badScheme (origin : String)
  | pathNotEmpty (p : String)
  | queryNotEmpty (q : String)
deriving DecidableEq

/-- The `Transport` struct.  The HTTP client is opaque to this layer;
`none` stands for Go `nil` and `defaultClient` for `http.DefaultClient`. -/
inductive HClient where
  | defaultClient
  | custom
deriving DecidableEq

/-- `Transport`: origin, client and ambient cookies. -/
structure Transport where
  origin : String
  client : HClient
  cookies : List Cookie

/-- `NewTransport(origin, client, cookies)`: `parsed` is what
`url.Parse(origin)` returned (the parser itself is the out-of-scope
collaborator).  The switch mirrors the source: parse error, then
scheme not http/https under `strings.EqualFold`, then non-empty path,
then non-empty query; a `nil` client is replaced by
`http.DefaultClient`. -/
def NewTransport (origin : String) (parsed : Except Err GoURL)
    (client : Option HClient) (cookies : List Cookie) :
    Except TransportErr Transport :=
  match parsed with
  | .error e => .error (.invalidURL e)
  | .ok u =>
    if ¬ (equalFold u.scheme "http" = true) ∧ ¬ (equalFold u.scheme "https" = true) then
      .error (.badScheme origin)
    else if u.path ≠ "" then
      .error (.pathNotEmpty u.path)
    else if u.rawQuery ≠ "" then
      .error (.queryNotEmpty u.rawQuery)
    else
      .ok { origin := origin
            client := client.getD .defaultClient
            cookies := cookies }

--------------------------------
-- Query escaping (net/url.QueryEscape, used at part_002 line 225)
--------------------------------

/-- Uppercase hex digit, as `net/url` uses in percent escapes. -/
def hexDigitUpper (n : Nat) : Char :=
  if n < 10 then Char.ofNat (48 + n) else Char.ofNat (55 + n)

/-- UTF-8 bytes of a scalar value. -/
def utf8Bytes (c : Char) : List Nat :=
  let v := c.toNat
  if v < 0x80 then [v]
  else if v < 0x800 then [0xC0 + v / 64, 0x80 + v % 64]
  else if v < 0x10000 then [0xE0 + v / 4096, 0x80 + v / 64 % 64, 0x80 + v % 64]
  else [0xF0 + v / 262144, 0x80 + v / 4096 % 64, 0x80 + v / 64 % 64, 0x80 + v % 64]

/-- Modelled from `net/url.QueryEscape` for one rune: unreserved
characters stay, space becomes `+`, every other byte becomes `%XX`. -/
def queryEscapeChar (c : Char) : List Char :=
  if c.isAlphanum ∨ c = '-' ∨ c = '_' ∨ c = '.' ∨ c = '~' then [c]
  else if c = ' ' then ['+']
  else (utf8Bytes c).flatMap fun b => ['%', hexDigitUpper (b / 16), hexDigitUpper (b % 16)]

/-- `net/url.QueryEscape`. -/
def queryEscape (s : String) : String :=
  String.mk (s.data.flatMap queryEscapeChar)

--------------------------------
-- Client (part_002, lines 211-323)
--------------------------------

/-- The outbound `*http.Request` as this code builds it: method, full
URL, optional body stream, plus the `Content-Type` header and the
cookies set on it after construction. -/
structure HReq where
  method : String
  url : String
  body : Option Stream
  contentType : String := ""
  cookies : List Cookie := []

/-- The inbound `*http.Response` at the boundary the client consumes:
status code, the `Content-Type` header value, and the body stream. -/
structure HResp where
  statusCode : Nat
  contentType : String
  body : Stream
deriving DecidableEq

/-- Observable client-side events: stream closes and response decoding. -/
inductive CEvent where
  | closedReqStream
  | closedRespBody
  | decodedResp
deriving DecidableEq

/-- The structured error the remote procedure returns, mirroring the
`fmt.Errorf` wraps, `WireError`, and `errors.Join` of the source. -/
inductive RErr where
  | encodingRequest (e : Err)
  | convertingRequest (e : Err)
  | issuingRequest (e : Err)
  | readBody (e : Err)
  | wire (msg : String) (code : Nat)
  | contentTypeMismatch (want got : String)
  | decodingResponse (e : Err)
  | closingRequest (e : Err)
  | raw (e : Err)
  | join (a b : RErr)
deriving DecidableEq

/-- `errors.Join(err, e)` as executed on a possibly-nil `err`
(the source only calls it with a non-nil second argument). -/
def joinErr (o : Option RErr) (e : RErr) : RErr :=
  match o with
  | none => e
  | some a => .join a e

/-- Whether a leaf error `x` is reachable in the joined error tree
through the cleanup constructors (`closingRequest` wraps the request
stream close, `raw` is the body close joined bare). -/
def RErr.mentionsClose : RErr → Err → Bool
  | .join a b, x => a.mentionsClose x || b.mentionsClose x
  | .closingRequest e, x => e == x
  | .raw e, x => e == x
  | _, _ => false

/-- Whether a possibly-nil error mentions a cleanup error leaf. -/
def optMentions (o : Option RErr) (x : Err) : Bool :=
  match o with
  | none => false
  | some E => E.mentionsClose x

/-- The request constructor of `Remote` (part_002 lines 216-228):
state-changing methods send the encoded stream as the body; otherwise
the stream is fully read, percent-encoded, and appended as the single
`srpc` query parameter, with a nil body. -/
def reqCtor {Response Request : Type} (e : Endpoint Response Request)
    (rawURL : String) (streamUp : Stream) : Except Err HReq :=
  if e.stateChanging then
    .ok { method := e.method, url := rawURL, body := some streamUp }
  else
    match readAll streamUp with
    | .error err => .error err
    | .ok buf =>
      .ok { method := e.method
            url := rawURL ++ "?" ++ QueryKey ++ "=" ++ queryEscape buf
            body := none }

/-- `readErr` (part_002 lines 316-323): read the whole body; on read
failure return the wrapped read error without closing; on success
close the body (discarding the close error) and return a `WireError`
with the body text and the status code. -/
def readErrM (resp : HResp) : RErr × List CEvent :=
  match readAll resp.body with
  | .error e => (.readBody e, [])
  | .ok buf => (.wire buf resp.statusCode, [.closedRespBody])

/-- The deferred cleanups of `Remote` (part_002 lines 257-274),
registered only after the round trip returns: body-close first,
request-stream-close second, hence executed in the reverse order; each
close error is joined into the named return error. -/
def applyCleanups {Response : Type} (respKeepOpen reqKeepOpen : Bool)
    (streamUp bodyS : Stream)
    (core : (Response × Option RErr) × List CEvent) :
    (Response × Option RErr) × List CEvent :=
  let afterReq :=
    if ¬ reqKeepOpen ∧ streamUp.closeable then
      match streamUp.closeErr with
      | some ce => ((core.1.1, some (joinErr core.1.2 (.closingRequest ce))),
                    core.2 ++ [.closedReqStream])
      | none => (core.1, core.2 ++ [.closedReqStream])
    else core
  if ¬ respKeepOpen then
    match bodyS.closeErr with
    | some ce => ((afterReq.1.1, some (joinErr afterReq.1.2 (.raw ce))),
                  afterReq.2 ++ [.closedRespBody])
    | none => (afterReq.1, afterReq.2 ++ [.closedRespBody])
  else afterReq

/-- The part of the remote call from status interpretation to response
decoding (part_002 lines 278-288), before the deferred cleanups run. -/
def remoteCore {Response Request : Type} [Inhabited Response]
    (e : Endpoint Response Request) (hResp : HResp) :
    (Response × Option RErr) × List CEvent :=
  if hResp.statusCode ≠ 200 then
    ((default, some (readErrM hResp).1), (readErrM hResp).2)
  else if hResp.contentType ≠ e.resc.ContentType then
    ((default, some (.contentTypeMismatch e.resc.ContentType hResp.contentType)), [])
  else
    match e.resc.Dec hResp.body with
    | .error er => ((default, some (.decodingResponse er)), [.decodedResp])
    | .ok r => ((r, none), [.decodedResp])

/-- Setting the `Content-Type` header from the request codec and
attaching the transport's ambient cookies (part_002 lines 243-246). -/
def finalizeReq {Response Request : Type} (e : Endpoint Response Request)
    (conn : Transport) (hReq0 : HReq) : HReq :=
  { hReq0 with contentType := e.reqc.ContentType, cookies := conn.cookies }

/-- The procedure returned by `Endpoint.Remote` (part_002 lines
230-289), with the network round trip abstracted as `doFn`.  Returns
the named return values `(resp, err)` together with the observable
events.  Exit paths before the round trip (encode failure, request
construction failure, `Do` failure) return before any cleanup defer is
registered. -/
def remoteCall {Response Request : Type} [Inhabited Response]
    (e : Endpoint Response Request) (conn : Transport)
    (doFn : HReq → Except Err HResp) (req : Request) :
    (Response × Option RErr) × List CEvent :=
  let rawURL := conn.origin ++ e.path
  match e.reqc.Co req with
  | .error er => ((default, some (.encodingRequest er)), [])
  | .ok streamUp =>
    match reqCtor e rawURL streamUp with
    | .error er => ((default, some (.convertingRequest er)), [])
    | .ok hReq0 =>
      match doFn (finalizeReq e conn hReq0) with
      | .error er => ((default, some (.issuingRequest er)), [])
      | .ok hResp =>
        applyCleanups e.resc.KeepOpen e.reqc.KeepOpen streamUp hResp.body
          (remoteCore e hResp)

--------------------------------
-- Server (part_002, lines 74-154)
--------------------------------

/-- The inbound request at the boundary the handler consumes: its body
stream and the value of the `srpc` query parameter
(`hReq.URL.Query().Get(QueryKey)`, empty when absent). -/
structure SReqIn where
  body : Stream
  querySrpc : String

/-- The HTTP response the handler writes: status, the `Content-Type`
header if set, and the body bytes. -/
structure SResp where
  status : Nat
  contentType : Option String
  body : String
deriving DecidableEq

/-- Observable server-side events. -/
inductive SEvent where
  | procCalled
  | closedStreamDown
deriving DecidableEq

/-- Model of `net/http.Error(w, msg, code)`: sets a plain-text content
type and writes the message followed by a newline
(`fmt.Fprintln`). -/
def httpError (msg : String) (code : Nat) : SResp :=
  { status := code
    contentType := some "text/plain; charset=utf-8"
    body := msg ++ "\n" }

/-- Model of `net/http.StatusText` for the codes this development
evaluates concretely. -/
def statusText (code : Nat) : String :=
  if code = 200 then "OK"
  else if code = 400 then "Bad Request"
  else if code = 404 then "Not Found"
  else if code = 500 then "Internal Server Error"
  else ""

/-- The data a procedure error exposes: `errResp = some (s, m)` when
the error's dynamic type implements `ErrorResponse` with
`Status() = s` and `Message() = m`; `none` for a plain error. -/
structure PErr where
  errResp : Option (Nat × String)

/-- The `any(req).(Validable)` capability check followed by
`Validate()`: `none` means the request type does not implement
`Validable`, which proceeds exactly like a passing validation. -/
def validationOf {Request : Type}
    (validator : Option (Request → Except Err Unit)) (req : Request) :
    Except Err Unit :=
  match validator with
  | none => .ok ()
  | some v => v req

/-- Source selection of `Register` (part_002 lines 82-85): the body
for state-changing methods, a `NopCloser` string reader over the
`srpc` query parameter otherwise. -/
def selectStream {Response Request : Type} (e : Endpoint Response Request)
    (hReq : SReqIn) : Stream :=
  if e.stateChanging then hReq.body else strReader hReq.querySrpc

/-- The part of `Register` from procedure invocation to the response
(part_002 lines 110-153): error mapping through the `ErrorResponse`
capability with `http.StatusText` fallback, then response encoding and
streaming with the content type of the response codec. -/
def handleProc {Response Request : Type} (e : Endpoint Response Request)
    (p : Request → Except PErr Response) (req : Request) :
    SResp × List SEvent :=
  match p req with
  | .error perr =>
    let status := match perr.errResp with
      | some sm => sm.1
      | none => 400
    let msg0 := match perr.errResp with
      | some sm => sm.2
      | none => ""
    let msg := if msg0 = "" then statusText status else msg0
    (httpError msg status, [.procCalled])
  | .ok resp =>
    match e.resc.Co resp with
    | .error _ => (httpError "Failed to encode response." 500, [.procCalled])
    | .ok streamDown =>
      let closeEvs : List SEvent :=
        if streamDown.closeable then [.closedStreamDown] else []
      match readAll streamDown with
      | .error _ =>
        ({ status := 200, contentType := some e.resc.ContentType, body := "" },
         [.procCalled] ++ closeEvs)
      | .ok buf =>
        ({ status := 200, contentType := some e.resc.ContentType, body := buf },
         [.procCalled] ++ closeEvs)

/-- The handler `Register` installs (part_002 lines 75-153): decode
from the selected source, run the validation capability, then
`handleProc`.  Decode and validation failures respond with fixed
client-safe messages through `http.Error` and never reach the
procedure. -/
def serveHandler {Response Request : Type} (e : Endpoint Response Request)
    (validator : Option (Request → Except Err Unit))
    (p : Request → Except PErr Response) (hReq : SReqIn) :
    SResp × List SEvent :=
  match e.reqc.Dec (selectStream e hReq) with
  | .error _ => (httpError "Unable to decode request." 400, [])
  | .ok req =>
    match validationOf validator req with
    | .error _ => (httpError "Invalid request." 400, [])
    | .ok _ => handleProc e p req

--------------------------------
-- Concrete instances used by witnesses and counterexamples
--------------------------------

/-- A small concrete stream. -/
def exStream : Stream := { data := "hi" }

/-- The endpoint `NewEndpoint("GET", "/g", unit, unit)` produces. -/
def epGet : Endpoint Unit Unit :=
  { method := "GET", path := "/g", stateChanging := false
    resc := codecJSONUnit, reqc := codecJSONUnit }

/-- The endpoint `NewEndpoint("POST", "/p", unit, unit)` produces. -/
def epPost : Endpoint Unit Unit :=
  { method := "POST", path := "/p", stateChanging := true
    resc := codecJSONUnit, reqc := codecJSONUnit }

/-- A concrete transport. -/
def connEx : Transport :=
  { origin := "http://h", client := .defaultClient, cookies := [] }

/-- A user codec whose encoder hands out a closeable stream whose
reads fail (such as a failing file): legal under the codec contract. -/
def failingReadCodec : Codec Unit :=
  { ContentType := "application/json", KeepOpen := false
    Co := fun _ => .ok { data := "x", readErr := some "boom", closeable := true }
    Dec := fun _ => .ok () }

/-- The endpoint `NewEndpoint("GET", "/c", unit, failingReadCodec)`
produces: idempotent mode, so the client must `ReadAll` the request
stream. -/
def epC6 : Endpoint Unit Unit :=
  { method := "GET", path := "/c", stateChanging := false
    resc := codecJSONUnit, reqc := failingReadCodec }

/-- A round-trip function that is never reached. -/
def doNever : HReq → Except Err HResp := fun _ => .error "not reached"

/-- A user codec whose encoder hands out a closeable stream whose
`Close` fails. -/
def failingCloseCodec : Codec Unit :=
  { ContentType := "application/json", KeepOpen := false
    Co := fun _ => .ok { data := "y", closeable := true, closeErr := some "cerr1" }
    Dec := fun _ => .ok () }

/-- `NewEndpoint("POST", "/w", unit, failingCloseCodec)`. -/
def epC6w : Endpoint Unit Unit :=
  { method := "POST", path := "/w", stateChanging := true
    resc := codecJSONUnit, reqc := failingCloseCodec }

/-- The closeable stream `failingCloseCodec` hands out. -/
def streamC6 : Stream := { data := "y", closeable := true, closeErr := some "cerr1" }

/-- The outbound request the client builds for `epC6w` over `connEx`. -/
def hReqC6 : HReq :=
  { method := "POST", url := "http://h/w", body := some streamC6 }

/-- A 200 response whose body `Close` fails. -/
def respC6 : HResp :=
  { statusCode := 200, contentType := "application/json"
    body := { data := "", closeErr := some "cerr2" } }

/-- Round trip returning `respC6`. -/
def doC6 : HReq → Except Err HResp := fun _ => .ok respC6

/-- A 500 response with body text `oops`. -/
def resp500 : HResp :=
  { statusCode := 500, contentType := "", body := { data := "oops" } }

/-- Round trip returning `resp500`. -/
def do500 : HReq → Except Err HResp := fun _ => .ok resp500

/-- The outbound request the client builds for `epPost` over `connEx`. -/
def hReqPost : HReq :=
  { method := "POST", url := "http://h/p", body := some emptyReader }

/-- A 200 response with the wrong content type. -/
def respBadCT : HResp :=
  { statusCode := 200, contentType := "text/html", body := { data := "x" } }

/-- Round trip returning `respBadCT`. -/
def doBadCT : HReq → Except Err HResp := fun _ => .ok respBadCT

/-- A procedure failing with an error that implements `ErrorResponse`
with status 404 and message `missing`. -/
def p404 : Unit → Except PErr Unit := fun _ => .error { errResp := some (404, "missing") }

/-- A procedure failing with a plain error (no `ErrorResponse`). -/
def pPlain : Unit → Except PErr Unit := fun _ => .error { errResp := none }

/-- A trivial inbound request. -/
def sreqEx : SReqIn := { body := { data := "" }, querySrpc := "" }

/-- A validator that always rejects. -/
def rejectAll : Unit → Except Err Unit := fun _ => .error "invalid"

--------------------------------
-- Theorems
--------------------------------

/-- Reading back a hex digit recovers its value. -/
theorem fromHex_hexDigit : ∀ n < 16, fromHex (hexDigit n) = some n := by
  decide

/-- `\u00xx` escapes decode back to the byte they encode. -/
theorem hex4_byte (v : Nat) (h : v < 256) :
    hex4 '0' '0' (hexDigit (v / 16)) (hexDigit (v % 16)) = some v := by
  have h1 : v / 16 < 16 := by omega
  have h2 : v % 16 < 16 := by omega
  have h0 : fromHex '0' = some 0 := by decide
  simp only [hex4, h0, fromHex_hexDigit _ h1, fromHex_hexDigit _ h2,
    Option.some.injEq]
  omega

/-- One escaped character decodes back in front of any correctly
decoding continuation. -/
theorem unquote_quoteChar (c : Char) (l tail : List Char)
    (ih : unquoteAux (quoteList l ++ '"' :: tail) = some (l, tail)) :
    unquoteAux (quoteChar c ++ (quoteList l ++ '"' :: tail)) = some (c :: l, tail) := by
  by_cases h1 : c = '"'
  · subst h1
    simp only [quoteChar, if_pos rfl, List.cons_append, List.nil_append]
    rw [unquoteAux.eq_def]; simp [escChar, ih]
  by_cases h2 : c = '\\'
  · subst h2
    simp only [quoteChar, if_neg h1, if_pos rfl, List.cons_append, List.nil_append]
    rw [unquoteAux.eq_def]; simp [escChar, ih]
  by_cases h3 : c = '\n'
  · subst h3
    simp only [quoteChar, if_neg h1, if_neg h2, if_pos rfl, List.cons_append,
      List.nil_append]
    rw [unquoteAux.eq_def]; simp [escChar, ih]
  by_cases h4 : c = '\r'
  · subst h4
    simp only [quoteChar, if_neg h1, if_neg h2, if_neg h3, if_pos rfl,
      List.cons_append, List.nil_append]
    rw [unquoteAux.eq_def]; simp [escChar, ih]
  by_cases h5 : c = '\t'
  · subst h5
    simp only [quoteChar, if_neg h1, if_neg h2, if_neg h3, if_neg h4, if_pos rfl,
      List.cons_append, List.nil_append]
    rw [unquoteAux.eq_def]; simp [escChar, ih]
  by_cases h6 : c.toNat < 32 ∨ c = '<' ∨ c = '>' ∨ c = '&'
  · have hb : c.toNat < 256 := by
      rcases h6 with h | h | h | h
      · omega
      · subst h; decide
      · subst h; decide
      · subst h; decide
    simp only [quoteChar, if_neg h1, if_neg h2, if_neg h3, if_neg h4, if_neg h5,
      if_pos h6, List.cons_append, List.nil_append]
    rw [unquoteAux.eq_def]
    simp [hex4_byte c.toNat hb, ih, Char.ofNat_toNat]
  by_cases h7 : c.toNat = 0x2028
  · have hx : hex4 '2' '0' '2' '8' = some 0x2028 := by decide
    simp only [quoteChar, if_neg h1, if_neg h2, if_neg h3, if_neg h4, if_neg h5,
      if_neg h6, if_pos h7, List.cons_append, List.nil_append]
    rw [unquoteAux.eq_def]
    simp only [hx, ih]
    simp
    rw [← h7, Char.ofNat_toNat]
  by_cases h8 : c.toNat = 0x2029
  · have hx : hex4 '2' '0' '2' '9' = some 0x2029 := by decide
    simp only [quoteChar, if_neg h1, if_neg h2, if_neg h3, if_neg h4, if_neg h5,
      if_neg h6, if_neg h7, if_pos h8, List.cons_append, List.nil_append]
    rw [unquoteAux.eq_def]
    simp only [hx, ih]
    simp
    rw [← h8, Char.ofNat_toNat]
  · simp only [quoteChar, if_neg h1, if_neg h2, if_neg h3, if_neg h4, if_neg h5,
      if_neg h6, if_neg h7, if_neg h8, List.cons_append, List.nil_append]
    rw [unquoteAux.eq_def]
    simp [h1, h2, ih]

/-- The JSON string decoder inverts the encoder on the escaped content,
leaving the input after the closing quote untouched. -/
theorem unquote_quoteList (l tail : List Char) :
    unquoteAux (quoteList l ++ '"' :: tail) = some (l, tail) := by
  induction l with
  | nil =>
    rw [quoteList, List.nil_append, unquoteAux.eq_def]
    simp
  | cons c l ih =>
    rw [quoteList, List.append_assoc]
    exact unquote_quoteChar c l tail ih

/-- Decoding the marshalled form of a `Req` value recovers it. -/
theorem parseReq_marshalReq (v : Req) : parseReq (marshalReq v) = .ok v := by
  have hdata : (marshalReq v).data
      = '{' :: '"' :: 'B' :: '"' :: ':' :: '"' ::
        (quoteList v.B.data ++ '"' :: ['}']) := by
    simp [marshalReq, goQuoteString, String.data_append]
  rw [parseReq, hdata]
  simp [unquote_quoteList]

/-- C3: for the JSON codec at a non-unit payload type (the
representative struct `Req` with a string field, quantified over every
value of the type), decoding the stream produced by encode
reconstructs the original value. -/
theorem claim_C3 (v : Req) :
    (codecJSONReq.Co v).bind codecJSONReq.Dec = .ok v := by
  simp [codecJSONReq, NewCodecJSON, reqJsonModel, bytesReader, readAll,
    Except.bind, parseReq_marshalReq]

/-- C5: the unit JSON codec encodes the unit value to the empty source
(no JSON literal) and decodes any source — including an empty one and
even one whose reads would fail — to the unit value without error and
without reading it. -/
theorem claim_C5 :
    codecJSONUnit.Co () = .ok emptyReader ∧
    emptyReader.data = "" ∧
    (∀ s : Stream, codecJSONUnit.Dec s = .ok ()) ∧
    codecJSONUnit.Dec emptyReader = .ok () := by
  refine ⟨rfl, rfl, fun s => rfl, rfl⟩

/-- C10: the no-op special case applies only to the anonymous empty
struct type: for the user-defined no-field struct `EmptyE` (whose
dynamic type is not `struct\x7b\x7d`, so the codec's type assertion
fails), encode emits the JSON literal `\x7b\x7d` (a non-empty source)
and decode reads the source (propagating its read error) and parses
it, failing on an empty source. -/
theorem claim_C10 :
    codecJSONEmptyE.Co ⟨⟩ = .ok (bytesReader "{}") ∧
    (bytesReader "{}").data ≠ "" ∧
    codecJSONEmptyE.Dec (bytesReader "{}") = .ok ⟨⟩ ∧
    codecJSONEmptyE.Dec emptyReader = .error "json: invalid EmptyE" ∧
    (∀ e : Err, codecJSONEmptyE.Dec { data := "", readErr := some e } = .error e) := by
  refine ⟨rfl, by decide, by rfl, by rfl, fun e => rfl⟩

/-- C1: an endpoint built by `NewEndpoint` derives
`stateChanging = method ∉ \x7bGET, OPTIONS, HEAD\x7d`, and the client
request constructor encodes in exactly one of two modes: when
`stateChanging` is false the encoded stream is fully read,
percent-encoded and sent as the single `srpc` query parameter with no
body; when it is true the stream becomes the request body and no query
parameter is added to the URL. -/
theorem claim_C1 {Response Request : Type} (method path origin : String)
    (resc : Codec Response) (reqc : Codec Request)
    (ep : Endpoint Response Request) (streamUp : Stream)
    (h : NewEndpoint method path resc reqc = .ok ep) :
    (ep.stateChanging
      = decide (method ≠ "GET" ∧ method ≠ "OPTIONS" ∧ method ≠ "HEAD")) ∧
    ((method = "GET" ∨ method = "OPTIONS" ∨ method = "HEAD") →
      ∀ buf, readAll streamUp = .ok buf →
        reqCtor ep (origin ++ path) streamUp =
          .ok { method := method
                url := origin ++ path ++ "?" ++ QueryKey ++ "=" ++ queryEscape buf
                body := none }) ∧
    (¬ (method = "GET" ∨ method = "OPTIONS" ∨ method = "HEAD") →
      reqCtor ep (origin ++ path) streamUp =
        .ok { method := method, url := origin ++ path, body := some streamUp }) := by
  unfold NewEndpoint at h
  split at h
  · simp at h
  · injection h with h
    subst h
    refine ⟨rfl, ?_, ?_⟩
    · intro hm buf hbuf
      rcases hm with h | h | h <;> subst h <;> simp [reqCtor, hbuf]
    · intro hm
      push_neg at hm
      obtain ⟨h1, h2, h3⟩ := hm
      simp [reqCtor, h1, h2, h3]

/-- Witness for C1 at the concrete endpoint `GET /g`. -/
theorem claim_C1_witness :
    (NewEndpoint "GET" "/g" codecJSONUnit codecJSONUnit = .ok epGet) ∧
    ((epGet.stateChanging
        = decide (("GET" : String) ≠ "GET" ∧ ("GET" : String) ≠ "OPTIONS"
            ∧ ("GET" : String) ≠ "HEAD")) ∧
      ((("GET" : String) = "GET" ∨ ("GET" : String) = "OPTIONS"
          ∨ ("GET" : String) = "HEAD") →
        ∀ buf, readAll exStream = .ok buf →
          reqCtor epGet ("http://h" ++ "/g") exStream =
            .ok { method := "GET"
                  url := "http://h" ++ "/g" ++ "?" ++ QueryKey ++ "=" ++ queryEscape buf
                  body := none }) ∧
      (¬ (("GET" : String) = "GET" ∨ ("GET" : String) = "OPTIONS"
          ∨ ("GET" : String) = "HEAD") →
        reqCtor epGet ("http://h" ++ "/g") exStream =
          .ok { method := "GET", url := "http://h" ++ "/g", body := some exStream })) :=
  ⟨by rfl, claim_C1 "GET" "/g" "http://h" codecJSONUnit codecJSONUnit epGet exStream (by rfl)⟩

/-- With an acceptable scheme, a non-empty path or query is rejected. -/
theorem newTransport_pathquery (origin : String) (u : GoURL)
    (client : Option HClient) (cookies : List Cookie)
    (hsch : ¬(¬(equalFold u.scheme "http" = true) ∧ ¬(equalFold u.scheme "https" = true)))
    (h : u.path ≠ "" ∨ u.rawQuery ≠ "") :
    ∃ terr, NewTransport origin (.ok u) client cookies = .error terr := by
  unfold NewTransport
  dsimp only
  rw [if_neg hsch]
  by_cases hp : u.path = ""
  · rcases h with h | h
    · exact absurd hp h
    · rw [if_neg (by simp [hp]), if_pos h]
      exact ⟨.queryNotEmpty u.rawQuery, rfl⟩
  · rw [if_pos hp]
    exact ⟨.pathNotEmpty u.path, rfl⟩

/-- C9: configuration is rejected at construction: `NewEndpoint` fails
for every path not starting with `/`, and `NewTransport` fails
whenever the origin does not parse, or parses with a scheme other than
http/https (case-insensitively), or with a non-empty path or query. -/
theorem claim_C9 {Response Request : Type} (method path : String)
    (resc : Codec Response) (reqc : Codec Request)
    (origin : String) (parsed : Except Err GoURL)
    (client : Option HClient) (cookies : List Cookie) :
    (startsWithSlash path = false →
      ∃ msg, NewEndpoint method path resc reqc = .error msg) ∧
    ((match parsed with
      | .error _ => True
      | .ok u =>
        (equalFold u.scheme "http" = false ∧ equalFold u.scheme "https" = false)
          ∨ u.path ≠ "" ∨ u.rawQuery ≠ "") →
      ∃ terr, NewTransport origin parsed client cookies = .error terr) := by
  constructor
  · intro hp
    refine ⟨"path must start with '/', " ++ path ++ " provided", ?_⟩
    simp [NewEndpoint, hp]
  · intro hcond
    match parsed with
    | .error e => exact ⟨.invalidURL e, rfl⟩
    | .ok u =>
      simp only at hcond
      by_cases hs : ¬(equalFold u.scheme "http" = true) ∧ ¬(equalFold u.scheme "https" = true)
      · exact ⟨.badScheme origin, by simp [NewTransport, hs]⟩
      · rcases hcond with ⟨h1, h2⟩ | hp | hq
        · exact absurd ⟨by simp [h1], by simp [h2]⟩ hs
        · exact newTransport_pathquery origin u client cookies hs (Or.inl hp)
        · exact newTransport_pathquery origin u client cookies hs (Or.inr hq)

/-- Witness for C9: a path missing the leading slash and an `ftp`
origin are both rejected. -/
theorem claim_C9_witness :
    (startsWithSlash "nope" = false →
      ∃ msg, NewEndpoint "M" "nope" codecJSONUnit codecJSONUnit = .error msg) ∧
    ((match (.ok { scheme := "ftp", host := "h", path := "", rawQuery := "" }
        : Except Err GoURL) with
      | .error _ => True
      | .ok u =>
        (equalFold u.scheme "http" = false ∧ equalFold u.scheme "https" = false)
          ∨ u.path ≠ "" ∨ u.rawQuery ≠ "") →
      ∃ terr, NewTransport "ftp://h"
        (.ok { scheme := "ftp", host := "h", path := "", rawQuery := "" })
        none [] = .error terr) :=
  claim_C9 "M" "nope" codecJSONUnit codecJSONUnit "ftp://h"
    (.ok { scheme := "ftp", host := "h", path := "", rawQuery := "" }) none []

/-- When both close errors are absent, the deferred cleanups change
neither the returned value nor the returned error. -/
theorem applyCleanups_fst {Response : Type} (a b : Bool) (su bs : Stream)
    (core : (Response × Option RErr) × List CEvent)
    (h1 : su.closeErr = none) (h2 : bs.closeErr = none) :
    (applyCleanups a b su bs core).1 = core.1 := by
  unfold applyCleanups
  by_cases hq : b = false ∧ su.closeable = true <;>
    by_cases hr : a = false <;>
      simp [hq, hr, h1, h2]

/-- The deferred cleanups never erase an error. -/
theorem applyCleanups_ne_none {Response : Type} (a b : Bool) (su bs : Stream)
    (core : (Response × Option RErr) × List CEvent)
    (h : core.1.2 ≠ none) :
    (applyCleanups a b su bs core).1.2 ≠ none := by
  unfold applyCleanups
  by_cases hq : b = false ∧ su.closeable = true <;>
    by_cases hr : a = false <;>
      cases hsu : su.closeErr <;>
        cases hbs : bs.closeErr <;>
          simp [hq, hr, hsu, hbs, joinErr, h]

/-- Any event of the cleaned-up run is a core event or a close event. -/
theorem applyCleanups_events {Response : Type} (a b : Bool) (su bs : Stream)
    (core : (Response × Option RErr) × List CEvent) (x : CEvent)
    (hx : x ∈ (applyCleanups a b su bs core).2) :
    x ∈ core.2 ∨ x = .closedReqStream ∨ x = .closedRespBody := by
  unfold applyCleanups at hx
  by_cases hq : b = false ∧ su.closeable = true <;>
    by_cases hr : a = false <;>
      cases hsu : su.closeErr <;>
        cases hbs : bs.closeErr <;>
          simp [hq, hr, hsu, hbs, List.mem_append] at hx <;>
          tauto

/-- C4: the remote call succeeds only on status 200; every non-OK
status yields an error, and (when the body is readable and no close
error intervenes) that error is exactly the `WireError` carrying the
full body text as message and the status as code. -/
theorem claim_C4 {Response Request : Type} [Inhabited Response]
    (e : Endpoint Response Request) (conn : Transport)
    (doFn : HReq → Except Err HResp) (req : Request)
    (streamUp : Stream) (hReq0 : HReq) (hResp : HResp)
    (h1 : e.reqc.Co req = .ok streamUp)
    (h2 : reqCtor e (conn.origin ++ e.path) streamUp = .ok hReq0)
    (h3 : doFn (finalizeReq e conn hReq0) = .ok hResp) :
    ((remoteCall e conn doFn req).1.2 = none → hResp.statusCode = 200) ∧
    (hResp.statusCode ≠ 200 → (remoteCall e conn doFn req).1.2 ≠ none) ∧
    (hResp.statusCode ≠ 200 → ∀ s, readAll hResp.body = .ok s →
      streamUp.closeErr = none → hResp.body.closeErr = none →
      (remoteCall e conn doFn req).1.2 = some (.wire s hResp.statusCode)) := by
  have hrc : remoteCall e conn doFn req
      = applyCleanups e.resc.KeepOpen e.reqc.KeepOpen streamUp hResp.body
          (remoteCore e hResp) := by
    simp only [remoteCall, h1, h2, h3]
  have hne : hResp.statusCode ≠ 200 → (remoteCall e conn doFn req).1.2 ≠ none := by
    intro hst
    rw [hrc]
    refine applyCleanups_ne_none _ _ _ _ _ ?_
    simp [remoteCore, hst]
  refine ⟨?_, hne, ?_⟩
  · intro hnone
    by_contra hst
    exact hne hst hnone
  · intro hst s hs hc1 hc2
    rw [hrc, show ((applyCleanups e.resc.KeepOpen e.reqc.KeepOpen streamUp
        hResp.body (remoteCore e hResp)).1 : Response × Option RErr)
        = (remoteCore e hResp).1 from applyCleanups_fst _ _ _ _ _ hc1 hc2]
    simp [remoteCore, hst, readErrM, hs]

/-- Witness for C4: a 500 response with body `oops` yields the wire
error `(oops, 500)`. -/
theorem claim_C4_witness :
    (codecJSONUnit.Co () = .ok emptyReader) ∧
    (reqCtor epPost (connEx.origin ++ epPost.path) emptyReader = .ok hReqPost) ∧
    (do500 (finalizeReq epPost connEx hReqPost) = .ok resp500) ∧
    (((remoteCall epPost connEx do500 ()).1.2 = none → resp500.statusCode = 200) ∧
      (resp500.statusCode ≠ 200 → (remoteCall epPost connEx do500 ()).1.2 ≠ none) ∧
      (resp500.statusCode ≠ 200 → ∀ s, readAll resp500.body = .ok s →
        emptyReader.closeErr = none → resp500.body.closeErr = none →
        (remoteCall epPost connEx do500 ()).1.2 = some (.wire s resp500.statusCode))) :=
  ⟨rfl, rfl, rfl,
    claim_C4 epPost connEx do500 () emptyReader hReqPost resp500 rfl rfl rfl⟩

/-- C8: on a 200 response whose `Content-Type` differs from the
response codec's label, the call errors, the body is never decoded,
and (when no close error intervenes) the error is exactly the
content-type mismatch. -/
theorem claim_C8 {Response Request : Type} [Inhabited Response]
    (e : Endpoint Response Request) (conn : Transport)
    (doFn : HReq → Except Err HResp) (req : Request)
    (streamUp : Stream) (hReq0 : HReq) (hResp : HResp)
    (h1 : e.reqc.Co req = .ok streamUp)
    (h2 : reqCtor e (conn.origin ++ e.path) streamUp = .ok hReq0)
    (h3 : doFn (finalizeReq e conn hReq0) = .ok hResp)
    (h4 : hResp.statusCode = 200)
    (h5 : hResp.contentType ≠ e.resc.ContentType) :
    ((remoteCall e conn doFn req).1.2 ≠ none) ∧
    (CEvent.decodedResp ∉ (remoteCall e conn doFn req).2) ∧
    (streamUp.closeErr = none → hResp.body.closeErr = none →
      (remoteCall e conn doFn req).1.2
        = some (.contentTypeMismatch e.resc.ContentType hResp.contentType)) := by
  have hrc : remoteCall e conn doFn req
      = applyCleanups e.resc.KeepOpen e.reqc.KeepOpen streamUp hResp.body
          (remoteCore e hResp) := by
    simp only [remoteCall, h1, h2, h3]
  have hcore : remoteCore e hResp
      = ((default, some (.contentTypeMismatch e.resc.ContentType hResp.contentType)),
          ([] : List CEvent)) := by
    simp [remoteCore, h4, h5]
  refine ⟨?_, ?_, ?_⟩
  · rw [hrc]
    refine applyCleanups_ne_none _ _ _ _ _ ?_
    rw [hcore]
    simp
  · intro hx
    rw [hrc] at hx
    rcases applyCleanups_events _ _ _ _ _ _ hx with hc | hc | hc
    · rw [hcore] at hc
      simp at hc
    · simp at hc
    · simp at hc
  · intro hc1 hc2
    rw [hrc, show ((applyCleanups e.resc.KeepOpen e.reqc.KeepOpen streamUp
        hResp.body (remoteCore e hResp)).1 : Response × Option RErr)
        = (remoteCore e hResp).1 from applyCleanups_fst _ _ _ _ _ hc1 hc2, hcore]

/-- Witness for C8: a 200 response labelled `text/html` against the
JSON codec. -/
theorem claim_C8_witness :
    (codecJSONUnit.Co () = .ok emptyReader) ∧
    (reqCtor epPost (connEx.origin ++ epPost.path) emptyReader = .ok hReqPost) ∧
    (doBadCT (finalizeReq epPost connEx hReqPost) = .ok respBadCT) ∧
    (respBadCT.statusCode = 200) ∧
    (respBadCT.contentType ≠ epPost.resc.ContentType) ∧
    (((remoteCall epPost connEx doBadCT ()).1.2 ≠ none) ∧
      (CEvent.decodedResp ∉ (remoteCall epPost connEx doBadCT ()).2) ∧
      (emptyReader.closeErr = none → respBadCT.body.closeErr = none →
        (remoteCall epPost connEx doBadCT ()).1.2
          = some (.contentTypeMismatch epPost.resc.ContentType respBadCT.contentType))) :=
  ⟨rfl, rfl, rfl, rfl, by decide,
    claim_C8 epPost connEx doBadCT () emptyReader hReqPost respBadCT rfl rfl rfl rfl
      (by decide)⟩

/-- A joined error mentions what the joined-in cleanup error mentions. -/
theorem joinErr_mentions (o : Option RErr) (r : RErr) (x : Err)
    (h : r.mentionsClose x = true) :
    (joinErr o r).mentionsClose x = true := by
  cases o with
  | none => simpa [joinErr]
  | some a => simp [joinErr, RErr.mentionsClose, h]

/-- Joining more errors preserves what is already mentioned. -/
theorem joinErr_preserves (o : Option RErr) (r : RErr) (x : Err)
    (h : optMentions o x = true) :
    (joinErr o r).mentionsClose x = true := by
  cases o with
  | none => simp [optMentions] at h
  | some a =>
    simp only [optMentions] at h
    simp [joinErr, RErr.mentionsClose, h]

/-- The body close always happens in the cleanups when the response
codec does not keep the body open. -/
theorem applyCleanups_bodyClosed {Response : Type} (b : Bool) (su bs : Stream)
    (core : (Response × Option RErr) × List CEvent) :
    CEvent.closedRespBody ∈ (applyCleanups false b su bs core).2 := by
  unfold applyCleanups
  by_cases hq : b = false ∧ su.closeable = true <;>
    cases hsu : su.closeErr <;>
      cases hbs : bs.closeErr <;>
        simp [hq, hsu, hbs, List.mem_append]

/-- The request-stream close always happens in the cleanups when the
codec releases it and the stream is closeable. -/
theorem applyCleanups_reqClosed {Response : Type} (a : Bool) (su bs : Stream)
    (core : (Response × Option RErr) × List CEvent)
    (hcl : su.closeable = true) :
    CEvent.closedReqStream ∈ (applyCleanups a false su bs core).2 := by
  unfold applyCleanups
  by_cases hr : a = false <;>
    cases hsu : su.closeErr <;>
      cases hbs : bs.closeErr <;>
        simp [hr, hcl, hsu, hbs, List.mem_append]

/-- A failing request-stream close is joined into the returned error. -/
theorem applyCleanups_reqCloseErr {Response : Type} (a : Bool) (su bs : Stream)
    (core : (Response × Option RErr) × List CEvent) (ce : Err)
    (hcl : su.closeable = true) (hce : su.closeErr = some ce) :
    optMentions (applyCleanups a false su bs core).1.2 ce = true := by
  have hm0 : RErr.mentionsClose (.closingRequest ce) ce = true := by
    simp [RErr.mentionsClose]
  have hm1 : (joinErr core.1.2 (RErr.closingRequest ce)).mentionsClose ce = true :=
    joinErr_mentions _ _ _ hm0
  have hm2 : ∀ r, (joinErr (some (joinErr core.1.2 (RErr.closingRequest ce)))
      r).mentionsClose ce = true := by
    intro r
    refine joinErr_preserves _ _ _ ?_
    simpa [optMentions] using hm1
  unfold applyCleanups
  by_cases hr : a = false <;>
    cases hbs : bs.closeErr <;>
      simp [hr, hcl, hce, hbs, optMentions, hm1, hm2]

/-- A failing response-body close is joined into the returned error. -/
theorem applyCleanups_bodyCloseErr {Response : Type} (b : Bool) (su bs : Stream)
    (core : (Response × Option RErr) × List CEvent) (ce : Err)
    (hce : bs.closeErr = some ce) :
    optMentions (applyCleanups false b su bs core).1.2 ce = true := by
  have hm0 : RErr.mentionsClose (.raw ce) ce = true := by
    simp [RErr.mentionsClose]
  have hm1 : ∀ o, (joinErr o (RErr.raw ce)).mentionsClose ce = true :=
    fun o => joinErr_mentions _ _ _ hm0
  unfold applyCleanups
  by_cases hq : b = false ∧ su.closeable = true <;>
    cases hsu : su.closeErr <;>
      simp [hq, hsu, hce, optMentions, hm1]

/-- C6 (amended): on every exit path reached after the round trip has
returned a response, a codec without `keepOpen` has its stream closed
(response body always; request stream when closeable) and every close
error is joined into the returned error rather than discarded.  Exit
paths taken before the round trip returns (encode failure, request
construction failure, transport failure) do not run these cleanups. -/
theorem claim_C6 {Response Request : Type} [Inhabited Response]
    (e : Endpoint Response Request) (conn : Transport)
    (doFn : HReq → Except Err HResp) (req : Request)
    (streamUp : Stream) (hReq0 : HReq) (hResp : HResp)
    (h1 : e.reqc.Co req = .ok streamUp)
    (h2 : reqCtor e (conn.origin ++ e.path) streamUp = .ok hReq0)
    (h3 : doFn (finalizeReq e conn hReq0) = .ok hResp) :
    (e.resc.KeepOpen = false →
      CEvent.closedRespBody ∈ (remoteCall e conn doFn req).2) ∧
    (e.reqc.KeepOpen = false → streamUp.closeable = true →
      CEvent.closedReqStream ∈ (remoteCall e conn doFn req).2) ∧
    (∀ ce, e.reqc.KeepOpen = false → streamUp.closeable = true →
      streamUp.closeErr = some ce →
      optMentions (remoteCall e conn doFn req).1.2 ce = true) ∧
    (∀ ce, e.resc.KeepOpen = false → hResp.body.closeErr = some ce →
      optMentions (remoteCall e conn doFn req).1.2 ce = true) := by
  have hrc : remoteCall e conn doFn req
      = applyCleanups e.resc.KeepOpen e.reqc.KeepOpen streamUp hResp.body
          (remoteCore e hResp) := by
    simp only [remoteCall, h1, h2, h3]
  refine ⟨?_, ?_, ?_, ?_⟩
  · intro hk
    rw [hrc, hk]
    exact applyCleanups_bodyClosed _ _ _ _
  · intro hk hcl
    rw [hrc, hk]
    exact applyCleanups_reqClosed _ _ _ _ hcl
  · intro ce hk hcl hce
    rw [hrc, hk]
    exact applyCleanups_reqCloseErr _ _ _ _ _ hcl hce
  · intro ce hk hce
    rw [hrc, hk]
    exact applyCleanups_bodyCloseErr _ _ _ _ _ hce

/-- Witness for C6 (amended): both the request stream close error and
the body close error end up joined in the returned error. -/
theorem claim_C6_witness :
    (failingCloseCodec.Co () = .ok streamC6) ∧
    (reqCtor epC6w (connEx.origin ++ epC6w.path) streamC6 = .ok hReqC6) ∧
    (doC6 (finalizeReq epC6w connEx hReqC6) = .ok respC6) ∧
    ((epC6w.resc.KeepOpen = false →
        CEvent.closedRespBody ∈ (remoteCall epC6w connEx doC6 ()).2) ∧
      (epC6w.reqc.KeepOpen = false → streamC6.closeable = true →
        CEvent.closedReqStream ∈ (remoteCall epC6w connEx doC6 ()).2) ∧
      (∀ ce, epC6w.reqc.KeepOpen = false → streamC6.closeable = true →
        streamC6.closeErr = some ce →
        optMentions (remoteCall epC6w connEx doC6 ()).1.2 ce = true) ∧
      (∀ ce, epC6w.resc.KeepOpen = false → respC6.body.closeErr = some ce →
        optMentions (remoteCall epC6w connEx doC6 ()).1.2 ce = true)) :=
  ⟨rfl, rfl, rfl,
    claim_C6 epC6w connEx doC6 () streamC6 hReqC6 respC6 rfl rfl rfl⟩

/-- Counterexample for C6 as stated: on the exit path where request
construction fails (the idempotent mode's `ReadAll` of a closeable
request stream errors), the call returns before any cleanup defer is
registered, so the closeable request stream of a codec without
`keepOpen` is never closed. -/
theorem claim_C6_counterexample :
    (NewEndpoint "GET" "/c" codecJSONUnit failingReadCodec = .ok epC6) ∧
    (epC6.reqc.KeepOpen = false) ∧
    (epC6.reqc.Co () = .ok { data := "x", readErr := some "boom", closeable := true }) ∧
    (Stream.closeable { data := "x", readErr := some "boom", closeable := true } = true) ∧
    ((remoteCall epC6 connEx doNever ()).1.2 = some (.convertingRequest "boom")) ∧
    ((remoteCall epC6 connEx doNever ()).2 = []) := by
  refine ⟨by rfl, rfl, rfl, rfl, by rfl, by rfl⟩

/-- Counterexample for C2 as stated: the error writer terminates the
line (`fmt.Fprintln`), so the body for a 404/`missing` procedure error
is `missing` followed by a newline, not exactly `missing`. -/
theorem claim_C2_counterexample :
    ((serveHandler epPost none p404 sreqEx).1.status = 404) ∧
    ((serveHandler epPost none p404 sreqEx).1.body = "missing\n") ∧
    ((serveHandler epPost none p404 sreqEx).1.body ≠ "missing") := by
  refine ⟨rfl, by rfl, by decide⟩

/-- C2 (amended): a procedure error exposing the `ErrorResponse`
capability with status 404 and message `missing` yields a 404 response
whose body is exactly `missing` followed by a newline; a plain error
yields the default bad-request status with its standard text followed
by a newline.  The procedure is invoked on the decoded, validated
request. -/
theorem claim_C2 {Response Request : Type} (e : Endpoint Response Request)
    (validator : Option (Request → Except Err Unit))
    (p : Request → Except PErr Response) (hReq : SReqIn) (req : Request)
    (perr : PErr)
    (h1 : e.reqc.Dec (selectStream e hReq) = .ok req)
    (h2 : validationOf validator req = .ok ())
    (h3 : p req = .error perr) :
    (perr.errResp = some (404, "missing") →
      serveHandler e validator p hReq =
        ({ status := 404, contentType := some "text/plain; charset=utf-8"
           body := "missing\n" }, [.procCalled])) ∧
    (perr.errResp = none →
      serveHandler e validator p hReq =
        ({ status := 400, contentType := some "text/plain; charset=utf-8"
           body := "Bad Request\n" }, [.procCalled])) := by
  constructor <;> intro h4 <;>
    simp [serveHandler, h1, h2, handleProc, h3, h4, httpError, statusText]

/-- Witness for C2 at the concrete procedure failing with 404/`missing`. -/
theorem claim_C2_witness :
    (epPost.reqc.Dec (selectStream epPost sreqEx) = .ok ()) ∧
    (validationOf none () = .ok ()) ∧
    (p404 () = .error { errResp := some (404, "missing") }) ∧
    ((({ errResp := some (404, "missing") } : PErr).errResp = some (404, "missing") →
        serveHandler epPost none p404 sreqEx =
          ({ status := 404, contentType := some "text/plain; charset=utf-8"
             body := "missing\n" }, [.procCalled])) ∧
      (({ errResp := some (404, "missing") } : PErr).errResp = none →
        serveHandler epPost none p404 sreqEx =
          ({ status := 400, contentType := some "text/plain; charset=utf-8"
             body := "Bad Request\n" }, [.procCalled]))) :=
  ⟨rfl, rfl, rfl,
    claim_C2 epPost none p404 sreqEx () { errResp := some (404, "missing") }
      rfl rfl rfl⟩

/-- C7: when the decoded request exposes the validation capability and
validation fails, the server responds with the bad-request status and
the procedure is never invoked. -/
theorem claim_C7 {Response Request : Type} (e : Endpoint Response Request)
    (v : Request → Except Err Unit)
    (p : Request → Except PErr Response) (hReq : SReqIn) (req : Request)
    (verr : Err)
    (h1 : e.reqc.Dec (selectStream e hReq) = .ok req)
    (h2 : v req = .error verr) :
    ((serveHandler e (some v) p hReq).1.status = 400) ∧
    (SEvent.procCalled ∉ (serveHandler e (some v) p hReq).2) := by
  constructor <;> simp [serveHandler, h1, validationOf, h2, httpError]

/-- Witness for C7: a validator rejecting every request. -/
theorem claim_C7_witness :
    (epPost.reqc.Dec (selectStream epPost sreqEx) = .ok ()) ∧
    (rejectAll () = .error "invalid") ∧
    (((serveHandler epPost (some rejectAll) pPlain sreqEx).1.status = 400) ∧
      (SEvent.procCalled ∉ (serveHandler epPost (some rejectAll) pPlain sreqEx).2)) :=
  ⟨rfl, rfl, claim_C7 epPost rejectAll pPlain sreqEx () "invalid" rfl rfl⟩

end Srpc
